import Mathlib

/-!
Shallow embedding of the pyxis-defs build-orchestration scripts
(src/build_json.py and src/build.py) and proofs about their behavior.

The scripts interact with an external world (filesystem, subprocesses,
version control).  That world is modelled by an explicit environment
record; every function of the scripts becomes a pure Lean function of
that environment.  Paths are modelled in the POSIX convention (the
separator character is a slash), matching the CI environment the
scripts target; the Windows console-encoding shims of build.py are
outside the modelled behavior.
-/

namespace PyxisDefs

/-! ## JSON values and the metadata extractor -/

/-- Values produced by the Python json.load: null, booleans, numbers
(modelled as integers, which covers every value relevant here), strings,
arrays, and objects as ordered field lists. -/
inductive JsonValue : Type where
  | null : JsonValue
  | bool : Bool → JsonValue
  | num : Int → JsonValue
  | str : String → JsonValue
  | arr : List JsonValue → JsonValue
  | obj : List (String × JsonValue) → JsonValue

/-- Python truthiness of a JSON value, as tested by the
if not project_name check in main: empty string, zero, empty
containers, false and null are falsy. -/
def JsonValue.truthy : JsonValue → Bool
  | .null => false
  | .bool b => b
  | .num n => decide (n ≠ 0)
  | .str s => decide (s ≠ "")
  | .arr xs => !xs.isEmpty
  | .obj fs => !fs.isEmpty

/-- Python exceptions that can escape the functions modelled here. -/
inductive PyExc : Type where
  | attributeError : PyExc
deriving DecidableEq

/-- Python data.get(key, default): defined on dictionaries, where a
missing key yields the default; on any other value the attribute access
raises AttributeError.  A JSON object with duplicate keys keeps the last
binding, hence the lookup on the reversed field list. -/
def JsonValue.get (v : JsonValue) (key : String) (dflt : JsonValue) :
    Except PyExc JsonValue :=
  match v with
  | .obj fields => .ok ((fields.reverse.lookup key).getD dflt)
  | _ => .error .attributeError

/-- What reading a path as JSON can yield: the file is absent
(FileNotFoundError from open), its text is not valid JSON
(json.JSONDecodeError from json.load), or it parses to a value. -/
inductive ReadOutcome : Type where
  | missing : ReadOutcome
  | undecodable : ReadOutcome
  | parsed : JsonValue → ReadOutcome

/-- Whether the path exists, as tested by json_file.exists() in main. -/
def ReadOutcome.doesExist : ReadOutcome → Bool
  | .missing => false
  | _ => true

/-- get_project_name of build_json.py lines 60 to 68 (build.py lines 110
to 118 is identical): reads the artifact, returns the project_name field
with default empty string, and catches exactly JSONDecodeError and
FileNotFoundError, turning both into an empty-string return.  The
data.get call on a non-dictionary value raises AttributeError, which is
not caught here. -/
def get_project_name (file : ReadOutcome) : Except PyExc JsonValue :=
  match file with
  | .missing => .ok (.str "")
  | .undecodable => .ok (.str "")
  | .parsed v => v.get "project_name" (.str "")

/-! ## Python string operations -/

/-- Python str.replace, specialized to a single-character pattern: every
replace call in the scripts has a one-character pattern (os.sep, the
slash, the backslash, or the letter Z of a timestamp suffix), for which
substring replacement is exactly per-character substitution. -/
def pyReplace (s : String) (pat : Char) (rep : String) : String :=
  String.mk ((s.data.map fun c => if c = pat then rep.data else [c]).flatten)

/-- Python str.strip with no argument, on the whitespace the
version-control output can carry: drops leading and trailing whitespace
characters. -/
def pyStrip (s : String) : String :=
  String.mk (((s.data.dropWhile Char.isWhitespace).reverse.dropWhile
    Char.isWhitespace).reverse)

/-- Lexicographic comparison of character lists by code point, the order
Python uses to compare strings. -/
def lexLe : List Char → List Char → Bool
  | [], _ => true
  | _ :: _, [] => false
  | a :: as, b :: bs =>
    if a.toNat = b.toNat then lexLe as bs else decide (a.toNat < b.toNat)

/-- Python string comparison (code-point lexicographic), the order the
projects.sort call uses on output names. -/
def pyStrLe (a b : String) : Bool := lexLe a.data b.data

/-! ## Datetime model and the history lookup -/

/-- A Python datetime value: proleptic Gregorian calendar fields plus an
optional UTC offset in seconds.  An absent offset models a
timezone-naive datetime. -/
structure DateTime : Type where
  year : Int
  month : Nat
  day : Nat
  hour : Nat
  minute : Nat
  second : Nat
  tz : Option Int
deriving DecidableEq

/-- Days since 1970-01-01 of a proleptic Gregorian date (the standard
days-from-civil algorithm, agreeing with Python datetime.toordinal up to
the epoch shift). -/
def daysFromCivil (y : Int) (m d : Nat) : Int :=
  let yy : Int := if m ≤ 2 then y - 1 else y
  let era : Int := yy / 400
  let yoe : Nat := (yy - era * 400).toNat
  let mp : Nat := if m ≤ 2 then m + 9 else m - 3
  let doy : Nat := (153 * mp + 2) / 5 + d - 1
  let doe : Nat := yoe * 365 + yoe / 4 - yoe / 100 + doy
  era * 146097 + (doe : Int) - 719468

/-- Proleptic Gregorian date of a days-since-epoch count (the standard
civil-from-days algorithm, inverse of daysFromCivil). -/
def civilFromDays (z : Int) : Int × Nat × Nat :=
  let zz : Int := z + 719468
  let era : Int := zz / 146097
  let doe : Nat := (zz - era * 146097).toNat
  let yoe : Nat := (doe - doe / 1460 + doe / 36524 - doe / 146096) / 365
  let y : Int := (yoe : Int) + era * 400
  let doy : Nat := doe - (365 * yoe + yoe / 4 - yoe / 100)
  let mp : Nat := (5 * doy + 2) / 153
  let d : Nat := doy - (153 * mp + 2) / 5 + 1
  let m : Nat := if mp < 10 then mp + 3 else mp - 9
  (if m ≤ 2 then y + 1 else y, m, d)

/-- Seconds since the epoch of the wall-clock fields of a datetime,
ignoring its offset. -/
def DateTime.naiveEpoch (dt : DateTime) : Int :=
  daysFromCivil dt.year dt.month dt.day * 86400
    + (dt.hour : Int) * 3600 + (dt.minute : Int) * 60 + (dt.second : Int)

/-- The UTC datetime of a seconds-since-epoch instant. -/
def dateTimeOfEpochUtc (t : Int) : DateTime :=
  let days : Int := t / 86400
  let secs : Nat := (t - days * 86400).toNat
  let c := civilFromDays days
  { year := c.1, month := c.2.1, day := c.2.2
    hour := secs / 3600, minute := secs % 3600 / 60, second := secs % 60
    tz := some 0 }

/-- Lines 97 to 100 of get_git_last_modified: a timezone-naive datetime
is stamped UTC unchanged (dt.replace with tzinfo utc), an aware one is
converted with astimezone to the UTC datetime of the same instant. -/
def normalizeToUtc (dt : DateTime) : DateTime :=
  match dt.tz with
  | none => { dt with tz := some 0 }
  | some off => dateTimeOfEpochUtc (dt.naiveEpoch - off)

/-- Decimal digits of a natural number, fuel-driven so that concrete
values evaluate inside the kernel. -/
def natDigitsAux : Nat → Nat → List Char → List Char
  | 0, _, acc => acc
  | fuel + 1, n, acc =>
    if n < 10 then Char.ofNat (48 + n) :: acc
    else natDigitsAux fuel (n / 10) (Char.ofNat (48 + n % 10) :: acc)

/-- Decimal rendering of a natural number. -/
def natToString (n : Nat) : String := String.mk (natDigitsAux (n + 1) n [])

/-- Decimal rendering of an integer. -/
def intToString (i : Int) : String :=
  if i < 0 then "-" ++ natToString (-i).toNat else natToString i.toNat

/-- Left zero-padding to a given width. -/
def padZero (w : Nat) (s : String) : String :=
  if w ≤ s.length then s
  else String.mk (List.replicate (w - s.length) '0') ++ s

/-- The strftime format string used by main for both the per-entry and
the top-level timestamps: year, month, day, then hour, minute, second,
with a Z suffix. -/
def DateTime.strftimeZ (dt : DateTime) : String :=
  padZero 4 (intToString dt.year) ++ "-" ++ padZero 2 (natToString dt.month)
    ++ "-" ++ padZero 2 (natToString dt.day) ++ "T"
    ++ padZero 2 (natToString dt.hour) ++ ":" ++ padZero 2 (natToString dt.minute)
    ++ ":" ++ padZero 2 (natToString dt.second) ++ "Z"

/-- The numeric value of a decimal digit character, if it is one. -/
def digitVal (c : Char) : Option Nat :=
  if 48 ≤ c.toNat ∧ c.toNat ≤ 57 then some (c.toNat - 48) else none

/-- Reads exactly a given number of decimal digits from the front of a
character list, returning their value and the rest. -/
def parseDigitsAux : Nat → Nat → List Char → Option (Nat × List Char)
  | 0, acc, cs => some (acc, cs)
  | _ + 1, _, [] => none
  | k + 1, acc, c :: cs =>
    match digitVal c with
    | some d => parseDigitsAux k (acc * 10 + d) cs
    | none => none

/-- Consumes one expected character from the front of a list. -/
def expectChar (ch : Char) : List Char → Option (List Char)
  | [] => none
  | c :: cs => if c = ch then some cs else none

/-- Whether a year is a Gregorian leap year. -/
def isLeapYear (y : Int) : Bool :=
  (y % 4 = 0 ∧ y % 100 ≠ 0) ∨ y % 400 = 0

/-- Number of days in a month of a given year. -/
def daysInMonth (y : Int) (m : Nat) : Nat :=
  if m = 2 then (if isLeapYear y then 29 else 28)
  else if m = 4 ∨ m = 6 ∨ m = 9 ∨ m = 11 then 30 else 31

/-- Parses the trailing UTC-offset part of a timestamp: nothing for a
naive datetime, or a sign with hours and minutes.  The offset must stay
under a day, as Python requires of a timezone. -/
def parseOffset : List Char → Option (Option Int)
  | [] => some none
  | c :: cs =>
    if c = '+' ∨ c = '-' then
      match parseDigitsAux 2 0 cs with
      | some (hh, rest) =>
        match expectChar ':' rest with
        | some rest2 =>
          match parseDigitsAux 2 0 rest2 with
          | some (mm, []) =>
            if mm ≤ 59 ∧ hh * 3600 + mm * 60 < 86400 then
              some (some (if c = '-' then -((hh * 3600 + mm * 60 : Nat) : Int)
                else ((hh * 3600 + mm * 60 : Nat) : Int)))
            else none
          | _ => none
        | none => none
      | none => none
    else none

/-- Reads a fixed count of digits followed by one expected separator
character. -/
def parseField (digits : Nat) (sep : Char) (cs : List Char) :
    Option (Nat × List Char) :=
  match parseDigitsAux digits 0 cs with
  | none => none
  | some (v, rest) =>
    match expectChar sep rest with
    | none => none
    | some rest2 => some (v, rest2)

/-- Modelled from the spec: the Python standard-library
datetime.fromisoformat call used by the history lookup, which is not
part of this repository.  Per the spec it parses the ISO-8601 commit
timestamp the version-control query emits: here the profile
YYYY-MM-DDTHH:MM:SS with an optional signed HH:MM offset (the code has
already rewritten a Z suffix into such an offset).  Field ranges are
validated; any other input is a ValueError, modelled as none. -/
def fromisoformat (s : String) : Option DateTime :=
  match parseField 4 '-' s.data with
  | none => none
  | some (y, r1) =>
  match parseField 2 '-' r1 with
  | none => none
  | some (mo, r2) =>
  match parseField 2 'T' r2 with
  | none => none
  | some (d, r3) =>
  match parseField 2 ':' r3 with
  | none => none
  | some (h, r4) =>
  match parseField 2 ':' r4 with
  | none => none
  | some (mi, r5) =>
  match parseDigitsAux 2 0 r5 with
  | none => none
  | some (se, r6) =>
  match parseOffset r6 with
  | none => none
  | some off =>
  if 1 ≤ mo ∧ mo ≤ 12 ∧ 1 ≤ d ∧ d ≤ daysInMonth (y : Int) mo
      ∧ h ≤ 23 ∧ mi ≤ 59 ∧ se ≤ 59 then
    some { year := (y : Int), month := mo, day := d,
           hour := h, minute := mi, second := se, tz := off }
  else none

/-- What running the version-control query can yield: the tool is
absent (FileNotFoundError from subprocess.run), or it ran to completion
with an exit code and captured standard output. -/
structure ProcOut : Type where
  returncode : Int
  stdout : String

/-- Outcome of attempting to spawn the version-control subprocess. -/
inductive GitEnv : Type where
  | toolMissing : GitEnv
  | ran : ProcOut → GitEnv

/-- get_git_last_modified of build_json.py lines 71 to 100 (build.py
lines 121 to 150 is identical): returns none when the tool is absent,
the query exits non-zero, the stripped output is empty, or the timestamp
does not parse; otherwise the parsed timestamp normalized to UTC. -/
def get_git_last_modified (g : GitEnv) : Option DateTime :=
  match g with
  | .toolMissing => none
  | .ran r =>
    if r.returncode ≠ 0 then none
    else
      let ts := pyStrip r.stdout
      if ts = "" then none
      else
        match fromisoformat (pyReplace ts 'Z' "+00:00") with
        | none => none
        | some dt => some (normalizeToUtc dt)

/-! ## The project builder -/

/-- What the external generator subprocess yields once spawned: an exit
code and the captured standard output and standard error text. -/
structure ProcResult : Type where
  returncode : Int
  stdout : String
  stderr : String

/-- build_pyxis_project of build.py lines 59 to 107 (build_json.py lines
34 to 57 is the same with the backend fixed to json, and without the
Windows console shims, which are outside the modelled behavior): the
subprocess.run call with check raises CalledProcessError exactly on a
non-zero exit; the handler prints a header line, then the captured
stderr and stdout when non-empty, all to the standard error of the caller,
and returns false.  The result is the success flag paired with the list
of diagnostic lines printed. -/
def build_pyxis_project (input_dir : String) (r : ProcResult) :
    Bool × List String :=
  if r.returncode = 0 then (true, [])
  else
    (false,
      ["Error building " ++ input_dir ++ ":"]
        ++ (if r.stderr ≠ "" then [r.stderr] else [])
        ++ (if r.stdout ≠ "" then [r.stdout] else []))

/-! ## The environment and shared orchestration data -/

/-- A discovered manifest: the directory containing a pyxis.toml file,
identified by its path relative to the projects root, rendered with
slash separators. -/
structure Manifest : Type where
  relPath : String

/-- The external world as one run of a script observes it: whether the
cargo install of a given command line succeeds, the manifests the
recursive search finds (in filesystem enumeration order), the response
of the generator subprocess to an input directory, output directory and
backend, the JSON read outcome of any path, the version-control query
outcome for any path, whether the index file write succeeds, and the
current UTC time. -/
structure Env : Type where
  installOk : List String → Bool
  toml_files : List Manifest
  pyxis : String → String → String → ProcResult
  artifact : String → ReadOutcome
  git : String → GitEnv
  writeOk : Bool
  now : DateTime

/-- The path separator in the POSIX path model (os.sep). -/
def osSep : Char := '/'

/-- Lines 124 to 126 of build_json.py (identical in build.py): the
output name of a manifest directory is its relative path with os.sep
replaced by an underscore and then the slash replaced by an
underscore. -/
def outputName (relPath : String) : String :=
  pyReplace (pyReplace relPath osSep "_") '/' "_"

/-- Lines 121 to 127: the list of output-name and manifest pairs, in
discovery order. -/
def projectPairs (files : List Manifest) : List (String × Manifest) :=
  files.map fun m => (outputName m.relPath, m)

/-- Line 130: the stable ascending sort of the pairs by output name
under Python string comparison. -/
def sortProjects (ps : List (String × Manifest)) : List (String × Manifest) :=
  ps.mergeSort fun a b => pyStrLe a.1 b.1

/-- One entry of the docs array: the extracted name value, the
forward-slash path of the artifact relative to the repository root, and
the optional last-modified timestamp rendering. -/
structure DocumentEntry : Type where
  name : JsonValue
  path : String
  last_modified_iso8601 : Option String

/-- The index document: the generation timestamp rendering and the docs
entries in emission order. -/
structure IndexDocument : Type where
  generated_iso8601 : String
  docs : List DocumentEntry

/-- The artifact path output_dir slash output.json, relative to the
repository root. -/
def jsonFilePath (base output_name : String) : String :=
  base ++ "/" ++ output_name ++ "/" ++ "output.json"

/-- The cargo command build_json.py always installs with (build.py runs
the same command when no install-source option is given). -/
def pyxisInstallCmd : List String :=
  ["cargo", "install", "--git", "https://github.com/ferrobrew/pyxis.git"]

/-! ## build_json.py -/

/-- Lines 146 to 181 of build_json.py: the per-project steps after a
successful build.  A none models an abort of the whole run with exit
status 1: the sys.exit(1) on a missing artifact or a falsy extracted
name, or the uncaught AttributeError that a valid non-object artifact
raises inside get_project_name (an uncaught exception also ends the
interpreter with status 1).  On success the docs entry is built, with
the history lookup degrading to an absent field rather than failing. -/
def entrySteps (env : Env) (output_name : String) (m : Manifest) :
    Option DocumentEntry :=
  let json_file := jsonFilePath "docs" output_name
  if (env.artifact json_file).doesExist = false then none
  else
    match get_project_name (env.artifact json_file) with
    | .error _ => none
    | .ok project_name =>
      if project_name.truthy = false then none
      else
        some { name := project_name
               path := pyReplace json_file '\\' "/"
               last_modified_iso8601 :=
                 (get_git_last_modified (env.git m.relPath)).map
                   DateTime.strftimeZ }

/-- Lines 135 to 181 of build_json.py: the per-project loop over the
sorted pairs.  A build failure or a failing per-project step aborts with
exit status 1, modelled as none; otherwise the docs entries accumulate
in processing order. -/
def processList (env : Env) : List (String × Manifest) →
    Option (List DocumentEntry)
  | [] => some []
  | (output_name, m) :: rest =>
    if (build_pyxis_project m.relPath
        (env.pyxis m.relPath ("docs" ++ "/" ++ output_name) "json")).1 = false
    then none
    else
      match entrySteps env output_name m with
      | none => none
      | some e => (processList env rest).map fun ds => e :: ds

/-- Observable outcome of a run: an argparse usage error (exit status
2), a fatal abort (exit status 1), or a completed run (exit status 0)
carrying the index document written, when one was. -/
inductive RunResult : Type where
  | usageError : RunResult
  | fatal : RunResult
  | completed : Option IndexDocument → RunResult

/-- main of build_json.py lines 103 to 197: install, discover, abort
when no manifest is found, pair and sort, process every project, then
write the index with a fresh generation timestamp, aborting when the
write fails. -/
def build_json_main (env : Env) : RunResult :=
  if env.installOk pyxisInstallCmd = false then .fatal
  else if env.toml_files.isEmpty then .fatal
  else
    match processList env (sortProjects (projectPairs env.toml_files)) with
    | none => .fatal
    | some docs =>
      if env.writeOk = false then .fatal
      else .completed (some { generated_iso8601 := env.now.strftimeZ
                              docs := docs })

/-! ## build.py -/

/-- The parsed command-line arguments of build.py. -/
structure Args : Type where
  branch : Option String
  tag : Option String
  rev : Option String
  path : Option String
  no_install : Bool
  backend : String

/-- The argparse defaults: no install-source option, installation not
skipped, json backend. -/
def defaultArgs : Args :=
  { branch := none, tag := none, rev := none, path := none
    no_install := false, backend := "json" }

/-- Lines 193 to 200 of build.py: how many of the mutually exclusive
install-source options were given. -/
def specifiedCount (a : Args) : Nat :=
  (if a.branch.isSome then 1 else 0) + (if a.tag.isSome then 1 else 0)
    + (if a.rev.isSome then 1 else 0) + (if a.path.isSome then 1 else 0)

/-- Lines 31 to 47 of build.py: the cargo command install_pyxis runs for
the given options; a path wins over the git source, and among the git
refinements branch wins over tag over rev. -/
def installCmd (a : Args) : List String :=
  match a.path with
  | some p => ["cargo", "install", "--path", p]
  | none =>
    ["cargo", "install", "--git", "https://github.com/ferrobrew/pyxis.git"]
      ++ (match a.branch with
          | some b => ["--branch", b]
          | none =>
            match a.tag with
            | some t => ["--tag", t]
            | none =>
              match a.rev with
              | some r => ["--rev", r]
              | none => [])

/-- Lines 212 to 216 of build.py: the docs directory for the json
backend, a directory named after the backend otherwise. -/
def baseDir (backend : String) : String :=
  if backend = "json" then "docs" else backend

/-- Lines 252 to 289 of build.py: the per-project metadata steps,
identical to those of build_json.py but relative to the selected output
base directory. -/
def entryStepsB (env : Env) (base output_name : String) (m : Manifest) :
    Option DocumentEntry :=
  let json_file := jsonFilePath base output_name
  if (env.artifact json_file).doesExist = false then none
  else
    match get_project_name (env.artifact json_file) with
    | .error _ => none
    | .ok project_name =>
      if project_name.truthy = false then none
      else
        some { name := project_name
               path := pyReplace json_file '\\' "/"
               last_modified_iso8601 :=
                 (get_git_last_modified (env.git m.relPath)).map
                   DateTime.strftimeZ }

/-- Lines 240 to 289 of build.py: the per-project loop; for a non-json
backend the metadata steps are skipped and no entry is collected. -/
def processListB (env : Env) (backend base : String) :
    List (String × Manifest) → Option (List DocumentEntry)
  | [] => some []
  | (output_name, m) :: rest =>
    if (build_pyxis_project m.relPath
        (env.pyxis m.relPath (base ++ "/" ++ output_name) backend)).1 = false
    then none
    else if backend = "json" then
      match entryStepsB env base output_name m with
      | none => none
      | some e => (processListB env backend base rest).map fun ds => e :: ds
    else processListB env backend base rest

/-- main of build.py lines 153 to 307: reject more than one
install-source option as a usage error (argparse parser.error, exit
status 2), install unless skipped, discover, abort when no manifest is
found, pair and sort, process every project for the selected backend,
and for the json backend write the index, aborting when the write
fails; for any other backend nothing further is written and the run
completes. -/
def build_main (a : Args) (env : Env) : RunResult :=
  if specifiedCount a > 1 then .usageError
  else if a.no_install = false ∧ env.installOk (installCmd a) = false then
    .fatal
  else if env.toml_files.isEmpty then .fatal
  else
    match processListB env a.backend (baseDir a.backend)
        (sortProjects (projectPairs env.toml_files)) with
    | none => .fatal
    | some docs =>
      if a.backend = "json" then
        if env.writeOk = false then .fatal
        else .completed (some { generated_iso8601 := env.now.strftimeZ
                                docs := docs })
      else .completed none

/-- Whether the json-backend per-project steps of build_json.py fail for
one output-name and manifest pair: the build returns failure, or the
entry steps abort (missing artifact, failed or falsy extraction). -/
def projectFails (env : Env) (p : String × Manifest) : Prop :=
  (build_pyxis_project p.2.relPath
    (env.pyxis p.2.relPath ("docs" ++ "/" ++ p.1) "json")).1 = false
  ∨ entrySteps env p.1 p.2 = none

/-- Whether the build.py per-project steps fail for one pair under a
given backend and base directory: the build returns failure, or (for the
json backend) the metadata steps abort. -/
def projectFailsB (env : Env) (backend base : String)
    (p : String × Manifest) : Prop :=
  (build_pyxis_project p.2.relPath
    (env.pyxis p.2.relPath (base ++ "/" ++ p.1) backend)).1 = false
  ∨ (backend = "json" ∧ entryStepsB env base p.1 p.2 = none)

/-- Full success of one build.py run: installation succeeds or is
skipped, at least one manifest is found, no per-project step fails, and
for the json backend the index write succeeds. -/
def fullSuccess (a : Args) (env : Env) : Prop :=
  (a.no_install = true ∨ env.installOk (installCmd a) = true) ∧
  env.toml_files ≠ [] ∧
  (∀ m ∈ env.toml_files,
    ¬ projectFailsB env a.backend (baseDir a.backend) (outputName m.relPath, m)) ∧
  (a.backend = "json" → env.writeOk = true)

/-- A world in which the single discovered project builds cleanly, its
artifact carries a project name, and there is no version-control
history; used to exercise the success paths. -/
def envAllOk : Env :=
  { installOk := fun _ => true
    toml_files := [⟨"a"⟩]
    pyxis := fun _ _ _ => ⟨0, "", ""⟩
    artifact := fun p =>
      if p = "docs" ++ "/" ++ "a" ++ "/" ++ "output.json" then
        ReadOutcome.parsed (.obj [("project_name", .str "A")])
      else ReadOutcome.missing
    git := fun _ => .toolMissing
    writeOk := true
    now := ⟨2024, 1, 1, 0, 0, 0, some 0⟩ }

/-- The same world with a failing generator subprocess; used to exercise
the abort paths. -/
def envFailBuild : Env :=
  { installOk := fun _ => true
    toml_files := [⟨"a"⟩]
    pyxis := fun _ _ _ => ⟨1, "out", "err"⟩
    artifact := fun _ => ReadOutcome.missing
    git := fun _ => .toolMissing
    writeOk := true
    now := ⟨2024, 1, 1, 0, 0, 0, some 0⟩ }

/-! ## Calendar arithmetic lemmas -/

theorem year_part (doe g e f N a b c : Nat) (hdoe : doe ≤ 146096)
    (hg : g = doe / 1460) (he : e = doe / 36524) (hf : f = doe / 146096)
    (hN : N = doe - g + e - f) (ha : a = N / 365) (hb : b = a / 4)
    (hc : c = a / 100) :
    a ≤ 399 ∧ 365 * a + b - c ≤ doe ∧ doe - (365 * a + b - c) ≤ 365 := by
  have he4 : e ≤ 4 := by omega
  have hf1 : f ≤ 1 := by omega
  have hEG : e ≤ g := by omega
  have hBG : b ≤ g := by omega
  have hGB : g ≤ b + 1 := by omega
  have hDG : 36499 * e ≤ doe - g := by omega
  rcases (by omega : f = 0 ∨ f = 1) with hf0 | hf0
  · have hCE1 : e ≤ c := by omega
    have hCE2 : c ≤ e := by omega
    omega
  · have hconc : doe = 146096 := by omega
    omega

theorem month_part (doy mp : Nat) (hdoy : doy ≤ 365)
    (hmp : mp = (5 * doy + 2) / 153) :
    mp ≤ 11 ∧ (153 * mp + 2) / 5 ≤ doy := by
  omega

/-- The civil-from-days decomposition is a section of days-from-civil:
converting a day count to a date and back is the identity. -/
theorem days_civil_inverse (z : Int) :
    daysFromCivil (civilFromDays z).1 (civilFromDays z).2.1
      (civilFromDays z).2.2 = z := by
  unfold civilFromDays daysFromCivil
  dsimp only
  generalize hera : (z + 719468) / 146097 = era
  generalize hdoe : (z + 719468 - era * 146097).toNat = doe
  have hz : (doe : Int) = z + 719468 - era * 146097 ∧ doe ≤ 146096 := by omega
  generalize hN : doe - doe / 1460 + doe / 36524 - doe / 146096 = N
  generalize ha : N / 365 = a
  generalize hb : a / 4 = b
  generalize hc : a / 100 = c
  generalize hdoy : doe - (365 * a + b - c) = doy
  generalize hmp : (5 * doy + 2) / 153 = mp
  have hyear := year_part doe (doe / 1460) (doe / 36524) (doe / 146096) N a b c
      hz.2 rfl rfl rfl hN.symm ha.symm hb.symm hc.symm
  rw [hdoy] at hyear
  have hmonth := month_part doy mp hyear.2.2 hmp.symm
  have hd5 : (153 * mp + 2) / 5 + (doy - (153 * mp + 2) / 5 + 1) - 1 = doy := by
    omega
  by_cases h10 : mp < 10
  · rw [if_pos h10, if_neg (by omega : ¬ mp + 3 ≤ 2),
      if_neg (by omega : ¬ mp + 3 ≤ 2), if_neg (by omega : ¬ mp + 3 ≤ 2)]
    rw [(by omega : ((a : Int) + era * 400) / 400 = era)]
    rw [(by omega : ((a : Int) + era * 400 - era * 400).toNat = a)]
    rw [(by omega : mp + 3 - 3 = mp), hb, hc, hd5]
    omega
  · have h2 : mp - 9 + 9 = mp := by omega
    rw [if_neg h10, if_pos (by omega : mp - 9 ≤ 2),
      if_pos (by omega : mp - 9 ≤ 2), if_pos (by omega : mp - 9 ≤ 2)]
    rw [(by ring : (a : Int) + era * 400 + 1 - 1 = (a : Int) + era * 400)]
    rw [(by omega : ((a : Int) + era * 400) / 400 = era)]
    rw [(by omega : ((a : Int) + era * 400 - era * 400).toNat = a)]
    rw [h2, hb, hc, hd5]
    omega

/-- Reading the wall-clock fields of the UTC datetime of an instant
gives back the instant: dateTimeOfEpochUtc loses nothing. -/
theorem naiveEpoch_dateTimeOfEpochUtc (t : Int) :
    (dateTimeOfEpochUtc t).naiveEpoch = t := by
  unfold dateTimeOfEpochUtc DateTime.naiveEpoch
  dsimp only
  rw [days_civil_inverse]
  omega

/-! ## Claims about the leaf components -/

/-- C4 counterexample: an artifact holding valid JSON that is not an
object (here the empty array) makes get_project_name raise an
AttributeError out of this boundary, refuting the claim that no
exception ever escapes it. -/
theorem get_project_name_raises_on_nonobject :
    get_project_name (.parsed (.arr [])) = .error PyExc.attributeError := rfl

/-- C4 (amended): the extractor returns Foo for an artifact whose object
carries project_name Foo, the empty string for a missing file, invalid
JSON, or an object lacking the field, and returns without raising on
every artifact whose top-level JSON value is an object; only a valid
non-object artifact makes an exception escape. -/
theorem get_project_name_contract :
    get_project_name (.parsed (.obj [("project_name", .str "Foo")]))
      = .ok (.str "Foo") ∧
    get_project_name .missing = .ok (.str "") ∧
    get_project_name .undecodable = .ok (.str "") ∧
    (∀ fields : List (String × JsonValue),
      fields.reverse.lookup "project_name" = none →
      get_project_name (.parsed (.obj fields)) = .ok (.str "")) ∧
    (∀ fields : List (String × JsonValue), ∃ v,
      get_project_name (.parsed (.obj fields)) = .ok v) := by
  refine ⟨rfl, rfl, rfl, fun fields h => ?_, fun fields => ⟨_, rfl⟩⟩
  unfold get_project_name JsonValue.get
  dsimp only
  rw [h]
  rfl

/-- Witness for the amended C4 contract at the empty object. -/
theorem get_project_name_contract_witness :
    get_project_name (.parsed (.obj [])) = .ok (.str "") :=
  get_project_name_contract.2.2.2.1 [] rfl

/-- C5: the history-lookup normalization maps a timezone-aware datetime
to the UTC datetime of the same instant with a zero offset, stamps a
naive datetime as UTC unchanged, and renders the git timestamp
2024-01-01T00:00:00+05:00 as 2023-12-31T19:00:00Z. -/
theorem timestamps_normalized_to_utc :
    (∀ (dt : DateTime) (off : Int), dt.tz = some off →
      (normalizeToUtc dt).tz = some 0 ∧
      (normalizeToUtc dt).naiveEpoch = dt.naiveEpoch - off) ∧
    (∀ dt : DateTime, dt.tz = none →
      normalizeToUtc dt = { dt with tz := some 0 }) ∧
    (get_git_last_modified
        (.ran ⟨0, "2024-01-01T00:00:00+05:00\n"⟩)).map DateTime.strftimeZ
      = some "2023-12-31T19:00:00Z" := by
  refine ⟨fun dt off h => ?_, fun dt h => ?_, by decide⟩
  · unfold normalizeToUtc
    rw [h]
    exact ⟨rfl, naiveEpoch_dateTimeOfEpochUtc _⟩
  · unfold normalizeToUtc
    rw [h]

/-- Witness for C5 at the timestamp 2024-01-01T00:00:00 with a five-hour
offset. -/
theorem timestamps_normalized_to_utc_witness :
    (normalizeToUtc ⟨2024, 1, 1, 0, 0, 0, some 18000⟩).tz = some 0 ∧
    (normalizeToUtc ⟨2024, 1, 1, 0, 0, 0, some 18000⟩).naiveEpoch
      = DateTime.naiveEpoch ⟨2024, 1, 1, 0, 0, 0, some 18000⟩ - 18000 :=
  timestamps_normalized_to_utc.1 ⟨2024, 1, 1, 0, 0, 0, some 18000⟩ 18000 rfl

/-- C6: the history lookup returns an absent value whenever the tool is
unavailable, the query exits non-zero, the query output strips to empty,
or the timestamp does not parse; it is a total function (it never
raises); and the absence is non-fatal: whenever the artifact checks of
the per-project steps pass, an entry is produced whose last-modified
field simply mirrors whatever the lookup returned. -/
theorem history_lookup_absent_nonfatal :
    get_git_last_modified GitEnv.toolMissing = none ∧
    (∀ r : ProcOut, r.returncode ≠ 0 → get_git_last_modified (.ran r) = none) ∧
    (∀ r : ProcOut, pyStrip r.stdout = "" →
      get_git_last_modified (.ran r) = none) ∧
    (∀ r : ProcOut,
      fromisoformat (pyReplace (pyStrip r.stdout) 'Z' "+00:00") = none →
      get_git_last_modified (.ran r) = none) ∧
    (∀ (env : Env) (nm : String) (m : Manifest) (v : JsonValue),
      (env.artifact (jsonFilePath "docs" nm)).doesExist = true →
      get_project_name (env.artifact (jsonFilePath "docs" nm)) = .ok v →
      v.truthy = true →
      entrySteps env nm m = some
        { name := v
          path := pyReplace (jsonFilePath "docs" nm) '\\' "/"
          last_modified_iso8601 :=
            (get_git_last_modified (env.git m.relPath)).map
              DateTime.strftimeZ }) := by
  refine ⟨rfl, fun r h => ?_, fun r h => ?_, fun r h => ?_,
    fun env nm m v h1 h2 h3 => ?_⟩
  · unfold get_git_last_modified
    dsimp only
    rw [if_pos h]
  · unfold get_git_last_modified
    dsimp only
    by_cases hr : r.returncode ≠ 0
    · rw [if_pos hr]
    · rw [if_neg hr]
      rw [if_pos h]
  · unfold get_git_last_modified
    dsimp only
    by_cases hr : r.returncode ≠ 0
    · rw [if_pos hr]
    · rw [if_neg hr]
      by_cases hs : pyStrip r.stdout = ""
      · rw [if_pos hs]
      · rw [if_neg hs, h]
  · unfold entrySteps
    dsimp only
    rw [h1, h2]
    dsimp only
    rw [h3]
    rfl

/-- Witness for C6: a non-zero exit status yields an absent timestamp,
and in a concrete all-good world the entry is still produced with an
absent last-modified field. -/
theorem history_lookup_absent_nonfatal_witness :
    get_git_last_modified (.ran ⟨1, "x"⟩) = none ∧
    entrySteps envAllOk "a" ⟨"a"⟩ = some
      { name := .str "A"
        path := pyReplace (jsonFilePath "docs" "a") '\\' "/"
        last_modified_iso8601 :=
          (get_git_last_modified (envAllOk.git "a")).map
            DateTime.strftimeZ } :=
  ⟨history_lookup_absent_nonfatal.2.1 ⟨1, "x"⟩ (by decide),
   history_lookup_absent_nonfatal.2.2.2.2 envAllOk "a" ⟨"a"⟩ (.str "A")
     rfl rfl rfl⟩

/-- C7: the builder succeeds exactly on a zero exit code; on success it
prints nothing, and on a non-zero exit it returns failure and the
diagnostics printed to the standard error of the caller include the captured
stderr and stdout whenever they are non-empty. -/
theorem builder_success_iff_exit_zero (input_dir : String) (r : ProcResult) :
    ((build_pyxis_project input_dir r).1 = true ↔ r.returncode = 0) ∧
    (r.returncode = 0 → (build_pyxis_project input_dir r).2 = []) ∧
    (r.returncode ≠ 0 →
      (build_pyxis_project input_dir r).1 = false ∧
      (r.stderr ≠ "" → r.stderr ∈ (build_pyxis_project input_dir r).2) ∧
      (r.stdout ≠ "" → r.stdout ∈ (build_pyxis_project input_dir r).2)) := by
  by_cases h : r.returncode = 0
  · refine ⟨by simp [build_pyxis_project, h], fun _ => ?_, fun hne => absurd h hne⟩
    simp [build_pyxis_project, h]
  · refine ⟨by simp [build_pyxis_project, h], fun h0 => absurd h0 h,
      fun _ => ⟨by simp [build_pyxis_project, h], fun hs => ?_, fun ho => ?_⟩⟩
    · simp [build_pyxis_project, h, hs]
    · simp [build_pyxis_project, h, ho]

/-- Witness for C7 at a failing subprocess with captured output. -/
theorem builder_success_iff_exit_zero_witness :
    (build_pyxis_project "p" ⟨1, "o", "e"⟩).1 = false ∧
    "e" ∈ (build_pyxis_project "p" ⟨1, "o", "e"⟩).2 ∧
    "o" ∈ (build_pyxis_project "p" ⟨1, "o", "e"⟩).2 :=
  ⟨((builder_success_iff_exit_zero "p" ⟨1, "o", "e"⟩).2.2 (by decide)).1,
   ((builder_success_iff_exit_zero "p" ⟨1, "o", "e"⟩).2.2 (by decide)).2.1
     (by decide),
   ((builder_success_iff_exit_zero "p" ⟨1, "o", "e"⟩).2.2 (by decide)).2.2
     (by decide)⟩

/-- C10: the map from relative manifest path to output name is not
injective: the distinct relative paths a/b and a_b both map to the
output name a_b, hence to the same output directory and sort key. -/
theorem output_name_not_injective :
    outputName "a/b" = "a_b" ∧ outputName "a_b" = "a_b" ∧
    ("a/b" : String) ≠ "a_b" :=
  ⟨by decide, by decide, by decide⟩

/-! ## Ordering and loop lemmas for the orchestrators -/

theorem lexLe_total : ∀ as bs : List Char, (lexLe as bs || lexLe bs as) = true
  | [], _ => by simp [lexLe]
  | _ :: _, [] => by simp [lexLe]
  | a :: as, b :: bs => by
    by_cases h : a.toNat = b.toNat
    · simp only [lexLe, if_pos h, if_pos h.symm]
      exact lexLe_total as bs
    · simp only [lexLe, if_neg h, if_neg (Ne.symm h)]
      rw [Bool.or_eq_true, decide_eq_true_eq, decide_eq_true_eq]
      omega

theorem lexLe_trans : ∀ as bs cs : List Char,
    lexLe as bs = true → lexLe bs cs = true → lexLe as cs = true
  | [], _, _, _, _ => rfl
  | _ :: _, [], _, h1, _ => by simp [lexLe] at h1
  | _ :: _, _ :: _, [], _, h2 => by simp [lexLe] at h2
  | a :: as, b :: bs, c :: cs, h1, h2 => by
    simp only [lexLe] at h1 h2 ⊢
    by_cases hab : a.toNat = b.toNat
    · rw [if_pos hab] at h1
      by_cases hbc : b.toNat = c.toNat
      · rw [if_pos hbc] at h2
        rw [if_pos (hab.trans hbc)]
        exact lexLe_trans as bs cs h1 h2
      · rw [if_neg hbc, decide_eq_true_eq] at h2
        rw [if_neg (show a.toNat ≠ c.toNat by omega), decide_eq_true_eq]
        omega
    · rw [if_neg hab, decide_eq_true_eq] at h1
      by_cases hbc : b.toNat = c.toNat
      · rw [if_neg (show a.toNat ≠ c.toNat by omega), decide_eq_true_eq]
        omega
      · rw [if_neg hbc, decide_eq_true_eq] at h2
        rw [if_neg (show a.toNat ≠ c.toNat by omega), decide_eq_true_eq]
        omega

/-- The sorted pair list is ascending in output name under Python string
comparison. -/
theorem sortProjects_sorted (ps : List (String × Manifest)) :
    List.Pairwise (fun a b : String × Manifest => pyStrLe a.1 b.1 = true)
      (sortProjects ps) :=
  @List.sorted_mergeSort (String × Manifest)
    (fun a b => pyStrLe a.1 b.1)
    (fun _ _ _ hab hbc => lexLe_trans _ _ _ hab hbc)
    (fun _ _ => lexLe_total _ _) ps

/-- Sorting permutes the pair list. -/
theorem sortProjects_perm (ps : List (String × Manifest)) :
    (sortProjects ps).Perm ps :=
  List.mergeSort_perm ps _

/-- A manifest is discovered exactly when its pair reaches the sorted
work list. -/
theorem pair_mem_sortProjects {files : List Manifest} {m : Manifest} :
    m ∈ files ↔ (outputName m.relPath, m) ∈ sortProjects (projectPairs files) := by
  rw [(sortProjects_perm (projectPairs files)).mem_iff]
  constructor
  · intro h
    exact List.mem_map_of_mem _ h
  · intro h
    rcases List.mem_map.mp h with ⟨m2, hm2, he⟩
    have hs : m2 = m := congrArg Prod.snd he
    rw [hs] at hm2
    exact hm2

/-- Every element of the sorted work list is the pair of a discovered
manifest. -/
theorem mem_sortProjects_shape {files : List Manifest} {p : String × Manifest}
    (h : p ∈ sortProjects (projectPairs files)) :
    ∃ m ∈ files, p = (outputName m.relPath, m) := by
  rw [(sortProjects_perm (projectPairs files)).mem_iff] at h
  rcases List.mem_map.mp h with ⟨m, hm, he⟩
  exact ⟨m, hm, he.symm⟩

/-- The build_json.py loop aborts exactly when some work item fails a
per-project step. -/
theorem processList_none_iff (env : Env) :
    ∀ l : List (String × Manifest),
      (processList env l = none ↔ ∃ p ∈ l, projectFails env p)
  | [] => by simp [processList]
  | (nm, m) :: rest => by
    simp only [processList]
    by_cases hb : (build_pyxis_project m.relPath
        (env.pyxis m.relPath ("docs" ++ "/" ++ nm) "json")).1 = false
    · rw [if_pos hb]
      exact iff_of_true rfl ⟨(nm, m), by simp, Or.inl hb⟩
    · rw [if_neg hb]
      cases he : entrySteps env nm m with
      | none =>
        exact iff_of_true rfl ⟨(nm, m), by simp, Or.inr he⟩
      | some e =>
        rw [Option.map_eq_none', processList_none_iff env rest]
        constructor
        · rintro ⟨p, hp, hf⟩
          exact ⟨p, List.mem_cons_of_mem _ hp, hf⟩
        · rintro ⟨p, hp, hf⟩
          rcases List.mem_cons.mp hp with hph | hp2
          · rcases hph ▸ hf with hf2 | hf2
            · exact absurd hf2 hb
            · rw [he] at hf2
              exact absurd hf2 (by simp)
          · exact ⟨p, hp2, hf⟩

/-- A completed build_json.py loop yields one entry per work item. -/
theorem processList_length (env : Env) :
    ∀ (l : List (String × Manifest)) (ds : List DocumentEntry),
      processList env l = some ds → ds.length = l.length
  | [], ds, h => by
    simp only [processList, Option.some_inj] at h
    rw [← h]
    rfl
  | (nm, m) :: rest, ds, h => by
    simp only [processList] at h
    by_cases hb : (build_pyxis_project m.relPath
        (env.pyxis m.relPath ("docs" ++ "/" ++ nm) "json")).1 = false
    · rw [if_pos hb] at h
      exact absurd h (by simp)
    · rw [if_neg hb] at h
      cases he : entrySteps env nm m with
      | none =>
        rw [he] at h
        exact absurd h (by simp)
      | some e =>
        rw [he] at h
        cases hrest : processList env rest with
        | none =>
          rw [hrest] at h
          exact absurd h (by simp)
        | some ds2 =>
          rw [hrest] at h
          simp only [Option.map_some', Option.some_inj] at h
          rw [← h]
          simp [processList_length env rest ds2 hrest]

/-- The build.py loop aborts exactly when some work item fails a
per-project step for the selected backend. -/
theorem processListB_none_iff (env : Env) (backend base : String) :
    ∀ l : List (String × Manifest),
      (processListB env backend base l = none ↔
        ∃ p ∈ l, projectFailsB env backend base p)
  | [] => by simp [processListB]
  | (nm, m) :: rest => by
    simp only [processListB]
    by_cases hb : (build_pyxis_project m.relPath
        (env.pyxis m.relPath (base ++ "/" ++ nm) backend)).1 = false
    · rw [if_pos hb]
      exact iff_of_true rfl ⟨(nm, m), by simp, Or.inl hb⟩
    · rw [if_neg hb]
      by_cases hj : backend = "json"
      · rw [if_pos hj]
        cases he : entryStepsB env base nm m with
        | none =>
          exact iff_of_true rfl ⟨(nm, m), by simp, Or.inr ⟨hj, he⟩⟩
        | some e =>
          rw [Option.map_eq_none', processListB_none_iff env backend base rest]
          constructor
          · rintro ⟨p, hp, hf⟩
            exact ⟨p, List.mem_cons_of_mem _ hp, hf⟩
          · rintro ⟨p, hp, hf⟩
            rcases List.mem_cons.mp hp with hph | hp2
            · rcases hph ▸ hf with hf2 | ⟨_, hent⟩
              · exact absurd hf2 hb
              · rw [he] at hent
                exact absurd hent (by simp)
            · exact ⟨p, hp2, hf⟩
      · rw [if_neg hj]
        rw [processListB_none_iff env backend base rest]
        constructor
        · rintro ⟨p, hp, hf⟩
          exact ⟨p, List.mem_cons_of_mem _ hp, hf⟩
        · rintro ⟨p, hp, hf⟩
          rcases List.mem_cons.mp hp with hph | hp2
          · rcases hph ▸ hf with hf2 | hf2
            · exact absurd hf2 hb
            · exact absurd hf2.1 hj
          · exact ⟨p, hp2, hf⟩

/-- The json-specific per-project steps of build.py coincide with those
of build_json.py. -/
theorem entryStepsB_docs (env : Env) (nm : String) (m : Manifest) :
    entryStepsB env "docs" nm m = entrySteps env nm m := rfl

/-- With the json backend and the docs base directory, the build.py loop
is the build_json.py loop. -/
theorem processListB_json (env : Env) :
    ∀ l : List (String × Manifest),
      processListB env "json" "docs" l = processList env l
  | [] => rfl
  | (nm, m) :: rest => by
    simp only [processListB, processList]
    by_cases hb : (build_pyxis_project m.relPath
        (env.pyxis m.relPath ("docs" ++ "/" ++ nm) "json")).1 = false
    · rw [if_pos hb, if_pos hb]
    · rw [if_neg hb, if_neg hb, if_pos trivial]
      rw [entryStepsB_docs]
      cases he : entrySteps env nm m with
      | none => rfl
      | some e => rw [processListB_json env rest]


/-! ## Orchestrator-level helper lemmas -/

/-- Shared helper: a failing per-project step makes the build_json.py
run end in a fatal abort. -/
theorem run_fatal_of_fail (env : Env)
    (h : ∃ m ∈ env.toml_files, projectFails env (outputName m.relPath, m)) :
    build_json_main env = RunResult.fatal := by
  rcases h with ⟨m, hm, hfail⟩
  unfold build_json_main
  by_cases hi : env.installOk pyxisInstallCmd = false
  · rw [if_pos hi]
  · rw [if_neg hi]
    have hne : env.toml_files.isEmpty = false := by
      cases hlt : env.toml_files with
      | nil =>
        rw [hlt] at hm
        exact absurd hm (List.not_mem_nil m)
      | cons x xs =>
        rfl
    rw [if_neg (by rw [hne]; exact Bool.false_ne_true)]
    rw [(processList_none_iff env _).mpr
      ⟨(outputName m.relPath, m), pair_mem_sortProjects.mp hm, hfail⟩]

/-- Shared helper: a completed build_json.py run had no failing
per-project step. -/
theorem run_completed_no_fail (env : Env) (idx : IndexDocument)
    (h : build_json_main env = RunResult.completed (some idx)) :
    ∀ m ∈ env.toml_files, ¬ projectFails env (outputName m.relPath, m) := by
  intro m hm hfail
  unfold build_json_main at h
  by_cases hi : env.installOk pyxisInstallCmd = false
  · rw [if_pos hi] at h
    exact RunResult.noConfusion h
  · rw [if_neg hi] at h
    by_cases hempty : env.toml_files.isEmpty
    · rw [if_pos hempty] at h
      exact RunResult.noConfusion h
    · rw [if_neg hempty] at h
      rw [(processList_none_iff env _).mpr
        ⟨(outputName m.relPath, m), pair_mem_sortProjects.mp hm, hfail⟩] at h
      exact RunResult.noConfusion h

/-- Shared helper: the case analysis of one build.py run once the
argument check has passed. -/
theorem build_main_cases (a : Args) (env : Env)
    (h : specifiedCount a ≤ 1) :
    ((∃ o, build_main a env = RunResult.completed o) ↔ fullSuccess a env) ∧
    (¬ fullSuccess a env → build_main a env = RunResult.fatal) := by
  unfold build_main
  rw [if_neg (by omega : ¬ specifiedCount a > 1)]
  by_cases hin : a.no_install = false ∧ env.installOk (installCmd a) = false
  · rw [if_pos hin]
    have hnf : ¬ fullSuccess a env := by
      rintro ⟨h1, _, _, _⟩
      rcases h1 with h1 | h1
      · rw [hin.1] at h1
        exact Bool.noConfusion h1
      · rw [hin.2] at h1
        exact Bool.noConfusion h1
    refine ⟨iff_of_false ?_ hnf, fun _ => rfl⟩
    rintro ⟨o, ho⟩
    exact RunResult.noConfusion ho
  · have h1 : a.no_install = true ∨ env.installOk (installCmd a) = true := by
      rcases Bool.eq_false_or_eq_true a.no_install with hb | hb
      · exact Or.inl hb
      · rcases Bool.eq_false_or_eq_true (env.installOk (installCmd a)) with
          hc | hc
        · exact Or.inr hc
        · exact absurd ⟨hb, hc⟩ hin
    rw [if_neg hin]
    by_cases hem : env.toml_files.isEmpty
    · rw [if_pos hem]
      have hnf : ¬ fullSuccess a env := by
        rintro ⟨_, h2, _, _⟩
        exact h2 (List.isEmpty_iff.mp hem)
      refine ⟨iff_of_false ?_ hnf, fun _ => rfl⟩
      rintro ⟨o, ho⟩
      exact RunResult.noConfusion ho
    · rw [if_neg hem]
      have h2 : env.toml_files ≠ [] := by
        intro hx
        rw [hx] at hem
        exact hem rfl
      cases hp : processListB env a.backend (baseDir a.backend)
          (sortProjects (projectPairs env.toml_files)) with
      | none =>
        have hnf : ¬ fullSuccess a env := by
          rintro ⟨_, _, h3, _⟩
          rcases (processListB_none_iff env a.backend (baseDir a.backend)
            _).mp hp with ⟨p, hpmem, hpfail⟩
          rcases mem_sortProjects_shape hpmem with ⟨m, hm, hshape⟩
          exact h3 m hm (hshape ▸ hpfail)
        refine ⟨iff_of_false ?_ hnf, fun _ => rfl⟩
        rintro ⟨o, ho⟩
        exact RunResult.noConfusion ho
      | some ds =>
        dsimp only
        have h3 : ∀ m ∈ env.toml_files,
            ¬ projectFailsB env a.backend (baseDir a.backend)
              (outputName m.relPath, m) := by
          intro m hm hfail
          have : processListB env a.backend (baseDir a.backend)
              (sortProjects (projectPairs env.toml_files)) = none :=
            (processListB_none_iff env a.backend (baseDir a.backend) _).mpr
              ⟨(outputName m.relPath, m), pair_mem_sortProjects.mp hm, hfail⟩
          rw [hp] at this
          exact Option.noConfusion this
        by_cases hj : a.backend = "json"
        · rw [if_pos hj]
          by_cases hw : env.writeOk = false
          · rw [if_pos hw]
            have hnf : ¬ fullSuccess a env := by
              rintro ⟨_, _, _, h4⟩
              rw [h4 hj] at hw
              exact Bool.noConfusion hw
            refine ⟨iff_of_false ?_ hnf, fun _ => rfl⟩
            rintro ⟨o, ho⟩
            exact RunResult.noConfusion ho
          · rw [if_neg hw]
            have hf : fullSuccess a env :=
              ⟨h1, h2, h3, fun _ => Bool.not_eq_false _ |>.mp hw⟩
            exact ⟨iff_of_true ⟨_, rfl⟩ hf, fun hnf => absurd hf hnf⟩
        · rw [if_neg hj]
          have hf : fullSuccess a env :=
            ⟨h1, h2, h3, fun hx => absurd hx hj⟩
          exact ⟨iff_of_true ⟨_, rfl⟩ hf, fun hnf => absurd hf hnf⟩

/-! ## Claims about the orchestrators -/

/-- C1: the index is written only when every discovered project was
processed successfully, and any failing per-project step (build,
artifact existence, extraction) makes the run abort fatally with no
index written at all. -/
theorem all_or_nothing_run (env : Env) :
    (∀ idx, build_json_main env = RunResult.completed (some idx) →
      ∀ m ∈ env.toml_files, ¬ projectFails env (outputName m.relPath, m)) ∧
    ((∃ m ∈ env.toml_files, projectFails env (outputName m.relPath, m)) →
      build_json_main env = RunResult.fatal) :=
  ⟨fun idx h => run_completed_no_fail env idx h, run_fatal_of_fail env⟩

/-- Witness for C1: in the world whose single project fails to build,
the run aborts fatally. -/
theorem all_or_nothing_run_witness :
    build_json_main envFailBuild = RunResult.fatal :=
  (all_or_nothing_run envFailBuild).2
    ⟨⟨"a"⟩, by simp [envFailBuild], Or.inl (by decide)⟩

/-- C2: when manifests were found and installation, every build, every
per-project step and the final write succeed, the run completes with an
index whose docs array has exactly one entry per discovered manifest;
and a single failing build yields a fatal abort with no index file. -/
theorem index_counts_every_manifest (env : Env) :
    (env.toml_files ≠ [] → env.installOk pyxisInstallCmd = true →
      env.writeOk = true →
      (∀ m ∈ env.toml_files, ¬ projectFails env (outputName m.relPath, m)) →
      ∃ idx, build_json_main env = RunResult.completed (some idx) ∧
        idx.docs.length = env.toml_files.length) ∧
    ((∃ m ∈ env.toml_files,
        (build_pyxis_project m.relPath
          (env.pyxis m.relPath ("docs" ++ "/" ++ outputName m.relPath)
            "json")).1 = false) →
      build_json_main env = RunResult.fatal) := by
  constructor
  · intro hne hi hw hall
    unfold build_json_main
    rw [if_neg (by simp [hi])]
    rw [if_neg (fun hx => hne (List.isEmpty_iff.mp hx))]
    have hnone : processList env (sortProjects (projectPairs env.toml_files))
        ≠ none := by
      intro hx
      rcases (processList_none_iff env _).mp hx with ⟨p, hp, hf⟩
      rcases mem_sortProjects_shape hp with ⟨m, hm, hshape⟩
      exact hall m hm (hshape ▸ hf)
    rcases Option.ne_none_iff_exists'.mp hnone with ⟨ds, hds⟩
    rw [hds]
    dsimp only
    rw [if_neg (by simp [hw])]
    refine ⟨_, rfl, ?_⟩
    have hlen := processList_length env _ ds hds
    dsimp only
    rw [hlen, (sortProjects_perm _).length_eq]
    unfold projectPairs
    rw [List.length_map]
  · rintro ⟨m, hm, hb⟩
    exact run_fatal_of_fail env ⟨m, hm, Or.inl hb⟩

/-- Witness for C2: in the all-good single-project world the run
completes with a one-entry index. -/
theorem index_counts_every_manifest_witness :
    ∃ idx, build_json_main envAllOk = RunResult.completed (some idx) ∧
      idx.docs.length = envAllOk.toml_files.length :=
  (index_counts_every_manifest envAllOk).1 (by simp [envAllOk]) rfl rfl
    (by
      intro m hm
      simp only [envAllOk, List.mem_singleton] at hm
      subst hm
      rintro (hf | hf)
      · exact absurd hf (by decide)
      · have hs : (entrySteps envAllOk (outputName "a") ⟨"a"⟩).isSome = true :=
          rfl
        rw [hf] at hs
        exact Bool.noConfusion hs)

/-- C3: output names are the deterministic separator-to-underscore
rendering of the relative path, and the work list (hence the emission
order of the docs entries) is sorted ascending by output name whatever
order discovery produced, while containing exactly the discovered
output names. -/
theorem output_names_sorted (files : List Manifest) :
    List.Pairwise (fun a b : String × Manifest => pyStrLe a.1 b.1 = true)
      (sortProjects (projectPairs files)) ∧
    ((sortProjects (projectPairs files)).map Prod.fst).Perm
      (files.map fun m => outputName m.relPath) ∧
    outputName "x/y" = "x_y" := by
  refine ⟨sortProjects_sorted _, ?_, by decide⟩
  have h := (sortProjects_perm (projectPairs files)).map Prod.fst
  unfold projectPairs at h
  rw [List.map_map] at h
  exact h

/-- C8: with its default arguments (json backend, no install options,
installation enabled) build.py behaves exactly as build_json.py in
every world: same outcome, same index, same exit classification. -/
theorem build_defaults_refine_build_json (env : Env) :
    build_main defaultArgs env = build_json_main env := by
  have hsc : specifiedCount defaultArgs = 0 := rfl
  have hni : defaultArgs.no_install = false := rfl
  have hbk : defaultArgs.backend = "json" := rfl
  have hic : installCmd defaultArgs = pyxisInstallCmd := rfl
  have hbd : baseDir "json" = "docs" := rfl
  unfold build_main build_json_main
  simp +decide only [hsc, hni, hic, hbk, hbd, eq_self_iff_true, true_and,
    if_true, if_false]
  rw [processListB_json]

/-- C9: more than one install-source option is rejected as a usage
error whatever the world looks like; otherwise the run completes with
exit status zero exactly on full success, and any discovery, build,
per-project or index-write failure ends it with the fatal exit
status. -/
theorem cli_option_conflict_and_exit_codes (a : Args) (env : Env) :
    (specifiedCount a > 1 → build_main a env = RunResult.usageError) ∧
    (specifiedCount a ≤ 1 →
      ((∃ o, build_main a env = RunResult.completed o) ↔ fullSuccess a env) ∧
      (¬ fullSuccess a env → build_main a env = RunResult.fatal)) := by
  constructor
  · intro h
    unfold build_main
    rw [if_pos h]
  · intro h
    exact build_main_cases a env h

/-- Witness for C9: the default arguments pass the argument check, and
in the failing-build world the run aborts fatally. -/
theorem cli_option_conflict_and_exit_codes_witness :
    build_main defaultArgs envFailBuild = RunResult.fatal := by
  apply ((cli_option_conflict_and_exit_codes defaultArgs envFailBuild).2
    (by decide)).2
  rintro ⟨_, _, h3, _⟩
  refine h3 ⟨"a"⟩ (by simp [envFailBuild]) (Or.inl ?_)
  decide

end PyxisDefs
